import Mathlib

/-!
Shallow embedding of `src/streamlit_app.py` (scan-block parser and
coordinate aggregator) and proofs about it.

Conventions of the embedding:
* A file is a list of lines (Python iterates the handle line by line;
  the trailing newline is irrelevant because every consumer strips it
  or splits after stripping).
* Python `float` values are modelled as `ℚ`: every literal the input
  format produces is a finite decimal, which `ℚ` represents exactly.
* Python exceptions are modelled by `Except PyErr`; an exception that
  propagates out of `load_data` is an `.error` result, so no tables
  exist on the failure paths, exactly as in the source.
* pandas missing values (`NaN`) are modelled as `none : Option ℚ`.
-/

/-- The Python exceptions that the pipeline in `streamlit_app.py` can raise:
`StopIteration` from a bare `next(fh)` at end of file, `ValueError` from
`float(...)` or from assigning a wrong-length list to a DataFrame column,
and `KeyError` from `DataFrame.drop` on absent columns. -/
inductive PyErr where
  | stopIter
  | valueErr
  | keyErr
deriving DecidableEq, Repr

/-- CPython `str.strip()` restricted to ASCII whitespace, which is what
the input format can contain: drop whitespace from both ends. -/
def pyStrip (s : String) : String :=
  ⟨((s.data.dropWhile Char.isWhitespace).reverse.dropWhile Char.isWhitespace).reverse⟩

/-- CPython `line.split(";")` on the character level: split at every
`';'`, keeping empty pieces, and yielding `[""]` on the empty string. -/
def splitSemi : List Char → List (List Char)
  | [] => [[]]
  | c :: cs =>
    if c = ';' then [] :: splitSemi cs
    else
      match splitSemi cs with
      | t :: ts => (c :: t) :: ts
      | [] => [[c]]

/-- The split on `';'` as a function on strings. -/
def pySplit (s : String) : List String :=
  (splitSemi s.data).map (fun cs => ⟨cs⟩)

/-- The trimmed cells `[cell.strip() for cell in line.split(";")]` of line 21. -/
def partsOfLine (line : String) : List String :=
  (pySplit line).map pyStrip

/-- Predicate `looks_like_datetime` (lines 7–9): `re.match` of
`\d{4}-\d{2}-\d{2}T\d{2}:\d{2}:\d{2}` anchored at the start of the cell,
trailing characters tolerated.  `\d` is taken as an ASCII digit. -/
def looks_like_datetime (txt : String) : Bool :=
  match txt.data with
  | a0 :: a1 :: a2 :: a3 :: '-' :: b0 :: b1 :: '-' :: c0 :: c1 :: 'T' ::
      d0 :: d1 :: ':' :: e0 :: e1 :: ':' :: f0 :: f1 :: _ =>
      a0.isDigit && a1.isDigit && a2.isDigit && a3.isDigit &&
      b0.isDigit && b1.isDigit && c0.isDigit && c1.isDigit &&
      d0.isDigit && d1.isDigit && e0.isDigit && e1.isDigit &&
      f0.isDigit && f1.isDigit
  | _ => false

/-- Value of a string of ASCII digits read in base 10. -/
def decVal (cs : List Char) : ℕ :=
  cs.foldl (fun a c => 10 * a + (c.toNat - 48)) 0

/-- The mantissa of a CPython `float` literal: `digits`, `digits.`,
`digits.digits` or `.digits`.  Returns its exact value and the unread
rest of the input. -/
def parseMantissa (cs : List Char) : Option (ℚ × List Char) :=
  let ip := cs.takeWhile Char.isDigit
  let cs1 := cs.dropWhile Char.isDigit
  match cs1 with
  | '.' :: t =>
    let fp := t.takeWhile Char.isDigit
    let cs2 := t.dropWhile Char.isDigit
    if ip.isEmpty && fp.isEmpty then none
    else some ((decVal (ip ++ fp) : ℚ) / (10 : ℚ) ^ fp.length, cs2)
  | _ => if ip.isEmpty then none else some ((decVal ip : ℚ), cs1)

/-- The optional exponent part of a CPython `float` literal, applied to the
mantissa `m`; the whole rest of the input must be consumed. -/
def applyExpPart (m : ℚ) : List Char → Option ℚ
  | [] => some m
  | c :: t =>
    if c = 'e' ∨ c = 'E' then
      let (eneg, u) :=
        match t with
        | '-' :: u => (true, u)
        | '+' :: u => (false, u)
        | _ => (false, t)
      let ds := u.takeWhile Char.isDigit
      if ds.isEmpty then none
      else if (u.dropWhile Char.isDigit).isEmpty then
        some (if eneg then m / (10 : ℚ) ^ decVal ds else m * (10 : ℚ) ^ decVal ds)
      else none
    else none

/-- CPython `float(s)` on the finite decimal literals the scan format
produces: surrounding whitespace stripped, optional sign, decimal mantissa,
optional exponent.  (`inf`/`nan` spellings and `_` digit separators are
outside the model; the instrument format never emits them.)  `none` is
`ValueError`. -/
def pyFloat (s : String) : Option ℚ :=
  let cs := (pyStrip s).data
  let (neg, cs') :=
    match cs with
    | '-' :: t => (true, t)
    | '+' :: t => (false, t)
    | _ => (false, cs)
  match parseMantissa cs' with
  | none => none
  | some (m, rest) =>
    match applyExpPart m rest with
    | none => none
    | some v => some (if neg then -v else v)

/-- One scan block as built on lines 34–42 of the source: the five scalar
fields of the metadata row plus the two coordinate rows. -/
structure ScanBlock where
  DateTime : String
  Height : ℚ
  Gab : ℚ
  Angle : ℚ
  FixedPointHeight : ℚ
  X : List ℚ
  Y : List ℚ
deriving DecidableEq, Repr

/-- Row parsing `list(map(float, row))`: all cells must parse or the whole row fails. -/
def parseFloats : List String → Option (List ℚ)
  | [] => some []
  | c :: cs =>
    match pyFloat c, parseFloats cs with
    | some v, some vs => some (v :: vs)
    | _, _ => none

/-- The cells of the X or Y row: `next(fh).strip().split(";")[2:]`
(lines 30 and 32 of the source). -/
def rowCellsOf (row : String) : List String :=
  (pySplit (pyStrip row)).drop 2

/-- Building one block from a recognized metadata row and its X and Y rows
(lines 34–42): fields 2–5 and every row cell go through `float`; any
failure is the `ValueError` that aborts `load_data`. -/
def parseCandidate (ts h gab ang fph xr yr : String) : Except PyErr ScanBlock :=
  match pyFloat h, pyFloat gab, pyFloat ang, pyFloat fph with
  | some hv, some gv, some av, some fv =>
    match parseFloats (rowCellsOf xr), parseFloats (rowCellsOf yr) with
    | some xs, some ys => .ok ⟨ts, hv, gv, av, fv, xs, ys⟩
    | _, _ => .error .valueErr
  | _, _, _, _ => .error .valueErr

/-- The `for raw in fh` loop of `load_data` (lines 15–42).  `acc` is the
`blocks` list built so far (most recent first).  A blank or unrecognized
line is skipped; a block-start candidate consumes the next three lines
(`next(fh)` marker, X row, Y row) — fewer than three remaining lines is
the bare `next(fh)` raising `StopIteration`. -/
def parseLoop : List String → List ScanBlock → Except PyErr (List ScanBlock)
  | [], acc => .ok acc.reverse
  | raw :: rest, acc =>
    if pyStrip raw = "" then parseLoop rest acc
    else
      match partsOfLine (pyStrip raw) with
      | [ts, h, gab, ang, fph] =>
        if looks_like_datetime ts then
          match rest with
          | _m :: xr :: yr :: rest2 =>
            match parseCandidate ts h gab ang fph xr yr with
            | .ok b => parseLoop rest2 (b :: acc)
            | .error e => .error e
          | _ => .error .stopIter
        else parseLoop rest acc
      | _ => parseLoop rest acc

/-- The block-start test of line 22: exactly 5 trimmed `';'`-separated
fields and a timestamp-shaped first field. -/
def isBlockStart (raw : String) : Bool :=
  let parts := partsOfLine (pyStrip raw)
  parts.length = 5 && looks_like_datetime (parts.headD "")

/-- The body of the candidate branch of `parseLoop`, as a function of the
five trimmed fields and the unread rest of the file.  `parseLoop` on a
line recognized as a block start behaves exactly like this. -/
def blockBranch (ts h gab ang fph : String) (rest : List String)
    (acc : List ScanBlock) : Except PyErr (List ScanBlock) :=
  match rest with
  | _m :: xr :: yr :: rest2 =>
    match parseCandidate ts h gab ang fph xr yr with
    | .ok b => parseLoop rest2 (b :: acc)
    | .error e => .error e
  | _ => .error .stopIter

/-! ## The tabular layer: the pandas operations `load_data` and
`summarise_metrics` use, modelled on ordered association lists of columns. -/

/-- A pandas cell: `none` is `NaN`/missing. -/
abbrev Cell := Option ℚ

/-- A DataFrame: its columns in order, each a name with its values.
All rows of one frame share the index, whose length is the first
column's length. -/
abbrev Table := List (String × List Cell)

/-- One row of the metadata table: the five scalar columns
`DateTime, Height, Gab, Angle, FixedPointHeight`, in frame order. -/
abbrev MetaRow := String × ℚ × ℚ × ℚ × ℚ

/-- Column assignment `df[name] = vals`: replace the column if the name exists, else append
it at the end (pandas column-assignment semantics). -/
def setCol (t : Table) (name : String) (vals : List Cell) : Table :=
  if t.any (fun c => c.1 = name) then
    t.map (fun c => if c.1 = name then (name, vals) else c)
  else t ++ [(name, vals)]

/-- The length of the frame's index: the first column's length. -/
def nRows (t : Table) : ℕ :=
  match t with
  | [] => 0
  | c :: _ => c.2.length

/-- The values of the named column (`[]` when absent; lookups in the file
are only made at present names). -/
def colVals (t : Table) (name : String) : List Cell :=
  match t.find? (fun c => c.1 = name) with
  | some c => c.2
  | none => []

/-- Assignment `df[f"x_{i}"] = block["X"]` (lines 50–51): pandas accepts any list on a
frame with no columns (it creates the index), and otherwise raises
`ValueError` when the list's length differs from the index's. -/
def assignList (t : Table) (name : String) (vals : List ℚ) : Except PyErr Table :=
  if t.isEmpty then .ok [(name, vals.map some)]
  else if vals.length = nRows t then .ok (setCol t name (vals.map some))
  else .error .valueErr

/-- The `for i, block in enumerate(blocks)` loop of lines 49–51: assign
`x_i` then `y_i` for each block in discovery order. -/
def buildCoordAux : List ScanBlock → ℕ → Table → Except PyErr Table
  | [], _, t => .ok t
  | b :: bs, i, t =>
    match assignList t ("x_" ++ toString i) b.X with
    | .error e => .error e
    | .ok t1 =>
      match assignList t1 ("y_" ++ toString i) b.Y with
      | .error e => .error e
      | .ok t2 => buildCoordAux bs (i + 1) t2

/-- The coordinate table of lines 47–51, starting from `pd.DataFrame()`. -/
def buildCoordinates (blocks : List ScanBlock) : Except PyErr Table :=
  buildCoordAux blocks 0 []

/-- Frame construction `pd.DataFrame(blocks).drop(columns=["X", "Y"])` (line 45): with no
blocks the frame has no columns at all, so dropping `X` and `Y` raises
`KeyError`; otherwise the five scalar columns remain, one row per block
in discovery order. -/
def buildMeta (blocks : List ScanBlock) : Except PyErr (List MetaRow) :=
  match blocks with
  | [] => .error .keyErr
  | _ =>
    .ok (blocks.map (fun b => (b.DateTime, b.Height, b.Gab, b.Angle, b.FixedPointHeight)))

/-- Function `load_data` (lines 11–53) on the file's lines: run the block loop,
then derive the metadata table and the coordinate table.  Any Python
exception surfaces as `.error`, and then neither table exists. -/
def load_data (lines : List String) : Except PyErr (List MetaRow × Table) :=
  match parseLoop lines [] with
  | .error e => .error e
  | .ok blocks =>
    match buildMeta blocks with
    | .error e => .error e
    | .ok meta =>
      match buildCoordinates blocks with
      | .error e => .error e
      | .ok coords => .ok (meta, coords)

/-- CPython `s.startswith(pre)` on the character level. -/
def charsStarts : List Char → List Char → Bool
  | _, [] => true
  | [], _ :: _ => false
  | c :: cs, p :: ps => c = p && charsStarts cs ps

/-- Test `name.startswith(axis)`, the column selection of line 58. -/
def strStarts (s pre : String) : Bool :=
  charsStarts s.data pre.data

/-- The axis columns `df.columns[df.columns.str.startswith(col_name)]` of line 58: the names
of the columns of the given axis, in frame order. -/
def axisCols (t : Table) (axis : String) : List String :=
  (t.filter (fun c => strStarts c.1 axis)).map Prod.fst

/-- The present (non-`NaN`) values of row `i` across the named columns:
what `mean(axis=1)` / `median(axis=1)` aggregate with their default
`skipna=True`. -/
def rowVals (t : Table) (cols : List String) (i : ℕ) : List ℚ :=
  cols.filterMap (fun n => (colVals t n).getD i none)

/-- Row-wise arithmetic mean as pandas computes it: `NaN` on an empty set
of values, else the sum divided by the count. -/
def qmean (l : List ℚ) : Cell :=
  if l.isEmpty then none else some (l.sum / (l.length : ℚ))

/-- Row-wise statistical median as pandas computes it: `NaN` on an empty
set, the middle of the sorted values for an odd count, the mean of the two
middle ones for an even count. -/
def qmedian (l : List ℚ) : Cell :=
  if l.isEmpty then none
  else
    let s := l.insertionSort (· ≤ ·)
    let n := s.length
    if n % 2 = 1 then some (s.getD (n / 2) 0)
    else some ((s.getD (n / 2 - 1) 0 + s.getD (n / 2) 0) / 2)

/-- One iteration of the `for col_name in (["x","y"])` loop of lines
57–60: select the axis columns once, then assign the row-wise mean and
median columns. -/
def axisStep (t : Table) (axis : String) : Table :=
  let colList := axisCols t axis
  let t1 :=
    setCol t ("mean_" ++ axis)
      ((List.range (nRows t)).map (fun i => qmean (rowVals t colList i)))
  setCol t1 ("median_" ++ axis)
    ((List.range (nRows t1)).map (fun i => qmedian (rowVals t1 colList i)))

/-- Function `summarise_metrics` (lines 55–61).  `df.copy()` makes the frame the
loop mutates a fresh one; in this pure embedding the input is a value and
is trivially left intact, and the function returns the new frame. -/
def summarise_metrics (df : Table) : Table :=
  axisStep (axisStep df "x") "y"

/-- One iteration of `main`'s per-file loop (lines 124–166), tracking the
temporary file: the upload's bytes are written to a temp path, the
parse-aggregate-render sequence runs, and `Path(...).unlink()` (line 163)
is reached only when nothing raised — the `except` branch reports the
error and skips the unlink.  Returns whether the temp file still exists
afterwards, and the error reported, if any. -/
def processFile (lines : List String) : Bool × Option PyErr :=
  match load_data lines with
  | .ok _ => (false, none)
  | .error e => (true, some e)

/-! ## Lemmas about the block parser -/

/-- A successfully parsed row has one value per cell. -/
theorem parseFloats_length {l : List String} {vs : List ℚ}
    (h : parseFloats l = some vs) : vs.length = l.length := by
  induction l generalizing vs with
  | nil =>
    simp only [parseFloats, Option.some.injEq] at h
    subst h; rfl
  | cons c cs ih =>
    simp only [parseFloats] at h
    rcases hc : pyFloat c with _ | v <;> rw [hc] at h
    · exact absurd h (by simp)
    · rcases hcs : parseFloats cs with _ | ws <;> rw [hcs] at h
      · exact absurd h (by simp)
      · simp only [Option.some.injEq] at h
        subst h
        simp [ih hcs]

/-- A row with one unparseable cell fails as a whole. -/
theorem parseFloats_isNone_of_mem {l : List String} {c : String}
    (hm : c ∈ l) (hc : pyFloat c = none) : parseFloats l = none := by
  induction l with
  | nil => cases hm
  | cons d ds ih =>
    rcases List.mem_cons.mp hm with rfl | hm'
    · simp [parseFloats, hc]
    · simp only [parseFloats, ih hm']
      cases pyFloat d <;> rfl

/-- A blank line is skipped (line 17 of the source). -/
theorem parseLoop_blank (raw : String) (rest : List String) (acc : List ScanBlock)
    (h : pyStrip raw = "") : parseLoop (raw :: rest) acc = parseLoop rest acc := by
  rw [parseLoop, if_pos h]

/-- The empty line splits into one empty cell. -/
theorem partsOfLine_empty : partsOfLine "" = [""] := rfl

/-- A non-candidate line is skipped and the rest of the file parses as if
the line were absent (lines 17 and 22–23 of the source). -/
theorem parseLoop_skip (raw : String) (rest : List String) (acc : List ScanBlock)
    (hc : isBlockStart raw = false) :
    parseLoop (raw :: rest) acc = parseLoop rest acc := by
  by_cases hb : pyStrip raw = ""
  · exact parseLoop_blank raw rest acc hb
  · rw [parseLoop, if_neg hb]
    unfold isBlockStart at hc
    rcases hp : partsOfLine (pyStrip raw) with
        _ | ⟨ts, _ | ⟨f2, _ | ⟨f3, _ | ⟨f4, _ | ⟨f5, _ | ⟨f6, tl⟩⟩⟩⟩⟩⟩ <;>
      simp_all

/-- A line recognized as a block start is consumed together with the next
three lines: the loop continues like `blockBranch`. -/
theorem parseLoop_candidate (raw : String) (rest : List String) (acc : List ScanBlock)
    (ts f2 f3 f4 f5 : String)
    (hp : partsOfLine (pyStrip raw) = [ts, f2, f3, f4, f5])
    (hts : looks_like_datetime ts = true) :
    parseLoop (raw :: rest) acc = blockBranch ts f2 f3 f4 f5 rest acc := by
  have hb : pyStrip raw ≠ "" := by
    intro h
    rw [h, partsOfLine_empty] at hp
    simp at hp
  rw [parseLoop, if_neg hb, hp]
  simp only [hts, if_true]
  rfl

/-- The block-start test, written out: five trimmed fields with a
timestamp-shaped first one. -/
theorem isBlockStart_eq_true_iff (raw : String) :
    isBlockStart raw = true ↔
      ∃ ts f2 f3 f4 f5, partsOfLine (pyStrip raw) = [ts, f2, f3, f4, f5]
        ∧ looks_like_datetime ts = true := by
  unfold isBlockStart
  rcases hp : partsOfLine (pyStrip raw) with
      _ | ⟨ts, _ | ⟨f2, _ | ⟨f3, _ | ⟨f4, _ | ⟨f5, _ | ⟨f6, tl⟩⟩⟩⟩⟩⟩ <;>
    simp_all

/-- A file whose every line is blank or unrecognized yields exactly the
blocks already accumulated. -/
theorem parseLoop_all_skip (lines : List String) (acc : List ScanBlock)
    (h : ∀ l ∈ lines, pyStrip l = "" ∨ isBlockStart l = false) :
    parseLoop lines acc = .ok acc.reverse := by
  induction lines with
  | nil => rfl
  | cons raw rest ih =>
    rcases h raw (List.mem_cons_self raw rest) with hb | hs
    · rw [parseLoop_blank raw rest acc hb]
      exact ih fun l hl => h l (List.mem_cons_of_mem raw hl)
    · rw [parseLoop_skip raw rest acc hs]
      exact ih fun l hl => h l (List.mem_cons_of_mem raw hl)

/-! ## Claims about the parser -/

/-- C1 (amended): a completed `ScanBlock` carries the five scalar fields of
its metadata row, and its X and Y sequences have exactly one value per
cell of the X row and the Y row respectively; hence their lengths agree
exactly when the two rows have equally many cells — equality is not
enforced by construction. -/
theorem scan_c1_block_shape (ts f2 f3 f4 f5 xr yr : String) (b : ScanBlock)
    (hb : parseCandidate ts f2 f3 f4 f5 xr yr = .ok b) :
    b.DateTime = ts
    ∧ b.X.length = (rowCellsOf xr).length
    ∧ b.Y.length = (rowCellsOf yr).length
    ∧ (b.X.length = b.Y.length ↔ (rowCellsOf xr).length = (rowCellsOf yr).length) := by
  unfold parseCandidate at hb
  split at hb
  · split at hb
    · next xs ys hx hy =>
      simp only [Except.ok.injEq] at hb
      subst hb
      simp [parseFloats_length hx, parseFloats_length hy]
    · simp at hb
  · simp at hb

/-- Witness for C1: the scenario block of §8, where both rows have two
cells, so the emitted block has two X values, two Y values, and the
timestamp field intact. -/
theorem scan_c1_block_shape_witness :
    (⟨"2025-05-26T14:58:59", 10, 2, 0, 3/2, [1, 2], [3, 4]⟩ : ScanBlock).X.length
        = (rowCellsOf "X;;1.0;2.0").length
    ∧ (⟨"2025-05-26T14:58:59", 10, 2, 0, 3/2, [1, 2], [3, 4]⟩ : ScanBlock).Y.length
        = (rowCellsOf "Y;;3.0;4.0").length :=
  ⟨(scan_c1_block_shape "2025-05-26T14:58:59" "10.0" "2.0" "0.0" "1.5" "X;;1.0;2.0"
      "Y;;3.0;4.0" _ (by with_unfolding_all rfl)).2.1,
   (scan_c1_block_shape "2025-05-26T14:58:59" "10.0" "2.0" "0.0" "1.5" "X;;1.0;2.0"
      "Y;;3.0;4.0" _ (by with_unfolding_all rfl)).2.2.1⟩

/-- Counterexample to C1 as stated: an X row with two cells and a Y row
with one cell complete into an emitted `ScanBlock` whose sequences have
lengths 2 and 1 — `len(xValues) == len(yValues)` does not hold for every
emitted block. -/
theorem scan_c1_counterexample :
    parseLoop ["2025-05-26T14:58:59;10.0;2.0;0.0;1.5", "SCAN", "X;;1.0;2.0", "Y;;3.0"] []
        = .ok [⟨"2025-05-26T14:58:59", 10, 2, 0, 3/2, [1, 2], [3]⟩]
    ∧ (⟨"2025-05-26T14:58:59", 10, 2, 0, 3/2, [1, 2], [3]⟩ : ScanBlock).X.length
        ≠ (⟨"2025-05-26T14:58:59", 10, 2, 0, 3/2, [1, 2], [3]⟩ : ScanBlock).Y.length := by
  constructor
  · with_unfolding_all rfl
  · decide

/-- C2: when a recognized block-start line is followed by fewer than the
three lines the block needs (marker, X row, Y row), the loop — whatever
blocks `acc` already holds — raises `StopIteration` from the bare
`next(fh)`: the run ends in an error carrying no blocks at all, so no
partial block is emitted and `load_data` propagates the exception instead
of returning tables. -/
theorem scan_c2_truncated_raises (raw : String) (rest : List String) (acc : List ScanBlock)
    (hc : isBlockStart raw = true) (hlen : rest.length < 3) :
    parseLoop (raw :: rest) acc = .error .stopIter := by
  obtain ⟨ts, f2, f3, f4, f5, hp, hts⟩ := (isBlockStart_eq_true_iff raw).mp hc
  rw [parseLoop_candidate raw rest acc ts f2 f3 f4 f5 hp hts]
  rcases rest with _ | ⟨m, _ | ⟨xr, _ | ⟨yr, rest2⟩⟩⟩
  · rfl
  · rfl
  · rfl
  · simp at hlen
    omega

/-- Witness for C2: the truncation scenario of §8 — a valid block-start
line followed only by the marker line. -/
theorem scan_c2_truncated_raises_witness :
    parseLoop ["2025-05-26T14:58:59;10.0;2.0;0.0;1.5", "SCAN"] [] = .error .stopIter :=
  scan_c2_truncated_raises "2025-05-26T14:58:59;10.0;2.0;0.0;1.5" ["SCAN"] []
    (by decide) (by decide)

/-- C3: a non-blank line is treated as a block-start candidate exactly
when splitting it on `';'` yields five trimmed fields whose first matches
the timestamp pattern at its start; any other non-blank line is silently
skipped, leaving the parse of the remaining lines unchanged, and a
candidate line is consumed as a block start (it behaves as
`blockBranch`). -/
theorem scan_c3_block_start_rule (raw : String) (rest : List String) (acc : List ScanBlock)
    (hnb : pyStrip raw ≠ "") :
    (isBlockStart raw = true ↔
        ((partsOfLine (pyStrip raw)).length = 5
          ∧ looks_like_datetime ((partsOfLine (pyStrip raw)).headD "") = true))
    ∧ (isBlockStart raw = false → parseLoop (raw :: rest) acc = parseLoop rest acc)
    ∧ (∀ ts f2 f3 f4 f5, partsOfLine (pyStrip raw) = [ts, f2, f3, f4, f5] →
        looks_like_datetime ts = true →
        parseLoop (raw :: rest) acc = blockBranch ts f2 f3 f4 f5 rest acc) := by
  refine ⟨?_, fun h => parseLoop_skip raw rest acc h,
    fun ts f2 f3 f4 f5 hp hts => parseLoop_candidate raw rest acc ts f2 f3 f4 f5 hp hts⟩
  simp [isBlockStart]

/-- Witness for C3: the 5-field header line of §8 is not a candidate and
is skipped, leaving a following valid block to parse as if the header
were absent. -/
theorem scan_c3_block_start_rule_witness :
    parseLoop ["Header;h;g;a;f", "2025-05-26T14:58:59;10.0;2.0;0.0;1.5",
        "SCAN", "X;;1.0;2.0", "Y;;3.0;4.0"] []
      = parseLoop ["2025-05-26T14:58:59;10.0;2.0;0.0;1.5",
        "SCAN", "X;;1.0;2.0", "Y;;3.0;4.0"] [] :=
  (scan_c3_block_start_rule "Header;h;g;a;f" _ [] (by decide)).2.1 (by decide)

/-- C4: on a recognized block-start candidate whose marker, X and Y lines
are present, if any of the scalar fields 2–5 or any cell of the X row or
Y row fails `float` parsing, the loop ends in `ValueError`, and
`load_data` on a file beginning at that candidate returns no pair of
tables at all. -/
theorem scan_c4_numeric_failure (raw m xr yr ts f2 f3 f4 f5 : String)
    (rest : List String) (acc : List ScanBlock)
    (hp : partsOfLine (pyStrip raw) = [ts, f2, f3, f4, f5])
    (hts : looks_like_datetime ts = true)
    (hfail : pyFloat f2 = none ∨ pyFloat f3 = none ∨ pyFloat f4 = none ∨ pyFloat f5 = none
      ∨ (∃ cell ∈ rowCellsOf xr, pyFloat cell = none)
      ∨ (∃ cell ∈ rowCellsOf yr, pyFloat cell = none)) :
    parseLoop (raw :: m :: xr :: yr :: rest) acc = .error .valueErr
    ∧ ∀ out, load_data (raw :: m :: xr :: yr :: rest) ≠ .ok out := by
  have hpc : parseCandidate ts f2 f3 f4 f5 xr yr = .error .valueErr := by
    unfold parseCandidate
    rcases h2 : pyFloat f2 with _ | v2
    · rfl
    rcases h3 : pyFloat f3 with _ | v3
    · rfl
    rcases h4 : pyFloat f4 with _ | v4
    · rfl
    rcases h5 : pyFloat f5 with _ | v5
    · rfl
    rcases hx : parseFloats (rowCellsOf xr) with _ | xs
    · rfl
    rcases hy : parseFloats (rowCellsOf yr) with _ | ys
    · rfl
    exfalso
    rcases hfail with h | h | h | h | ⟨c, hm, hcn⟩ | ⟨c, hm, hcn⟩
    · rw [h2] at h; cases h
    · rw [h3] at h; cases h
    · rw [h4] at h; cases h
    · rw [h5] at h; cases h
    · rw [parseFloats_isNone_of_mem hm hcn] at hx; cases hx
    · rw [parseFloats_isNone_of_mem hm hcn] at hy; cases hy
  have hrun : ∀ a : List ScanBlock,
      parseLoop (raw :: m :: xr :: yr :: rest) a = .error .valueErr := by
    intro a
    rw [parseLoop_candidate raw (m :: xr :: yr :: rest) a ts f2 f3 f4 f5 hp hts]
    unfold blockBranch
    simp [hpc]
  refine ⟨hrun acc, fun out hout => ?_⟩
  unfold load_data at hout
  rw [hrun []] at hout
  cases hout

/-- Witness for C4: a block-start line whose second field is not numeric. -/
theorem scan_c4_numeric_failure_witness :
    parseLoop ["2025-05-26T14:58:59;abc;2.0;0.0;1.5", "SCAN", "X;;1.0", "Y;;2.0"] []
      = .error .valueErr :=
  (scan_c4_numeric_failure "2025-05-26T14:58:59;abc;2.0;0.0;1.5" "SCAN" "X;;1.0" "Y;;2.0"
    "2025-05-26T14:58:59" "abc" "2.0" "0.0" "1.5" [] []
    (by decide) (by decide) (Or.inl (by with_unfolding_all rfl))).1

/-- C10: a file with no block-start candidate at all (for instance an
empty or header-only file) makes `load_data` raise: the block list stays
empty, so `pd.DataFrame(blocks)` has no columns and dropping `X` and `Y`
raises `KeyError` instead of returning two empty tables. -/
theorem scan_c10_no_blocks_raises (lines : List String)
    (h : ∀ l ∈ lines, pyStrip l = "" ∨ isBlockStart l = false) :
    load_data lines = .error .keyErr := by
  unfold load_data
  rw [parseLoop_all_skip lines [] h]
  rfl

/-- Witness for C10: a header-only file. -/
theorem scan_c10_no_blocks_raises_witness :
    load_data ["Header;h;g;a;f"] = .error .keyErr :=
  scan_c10_no_blocks_raises ["Header;h;g;a;f"] (by decide)

/-- C5 evidence: the per-file loop of `main` deletes the temporary file
only on the success path — on a failing file (here: a header-only file,
whose parse raises `KeyError`) the `except` branch reports the error and
the temp file is left in place, because `unlink` sits inside the `try`
after the whole parse-aggregate-render sequence. -/
theorem orchestration_c5_temp_leak :
    processFile ["Header;h;g;a;f"] = (true, some .keyErr)
    ∧ processFile ["2025-05-26T14:58:59;10.0;2.0;0.0;1.5", "SCAN", "X;;1.0;2.0", "Y;;3.0;4.0"]
        = (false, none) := by
  constructor
  · with_unfolding_all rfl
  · with_unfolding_all rfl

/-! ## Lemmas about the coordinate-table construction -/

/-- Appending a column does not change the index length of a frame that
already has a column. -/
theorem nRows_append (t : Table) (c : String × List Cell) (ht : t ≠ []) :
    nRows (t ++ [c]) = nRows t := by
  cases t with
  | nil => exact absurd rfl ht
  | cons d t' => rfl

/-- Assigning a wrong-length list to a nonempty frame raises `ValueError`. -/
theorem assignList_mismatch (t : Table) (n : String) (v : List ℚ) (ht : t ≠ [])
    (hv : v.length ≠ nRows t) : assignList t n v = .error .valueErr := by
  cases t with
  | nil => exact absurd rfl ht
  | cons c t' =>
    unfold assignList
    rw [if_neg (by simp), if_neg hv]

/-- Assigning a matching-length list to a nonempty frame sets the column. -/
theorem assignList_match (t : Table) (n : String) (v : List ℚ) (ht : t ≠ [])
    (hv : v.length = nRows t) : assignList t n v = .ok (setCol t n (v.map some)) := by
  cases t with
  | nil => exact absurd rfl ht
  | cons c t' =>
    unfold assignList
    rw [if_neg (by simp), if_pos hv]

/-- Setting a column with values of the index's length keeps the frame
nonempty and its index length unchanged. -/
theorem nRows_setCol (t : Table) (n : String) (v : List Cell) (ht : t ≠ [])
    (hv : v.length = nRows t) :
    nRows (setCol t n v) = nRows t ∧ setCol t n v ≠ [] := by
  unfold setCol
  split
  · cases t with
    | nil => exact absurd rfl ht
    | cons c t' =>
      refine ⟨?_, by simp⟩
      by_cases hc : c.1 = n <;> simp [hc, nRows] at hv ⊢ <;> simp [hv]
  · cases t with
    | nil => exact absurd rfl ht
    | cons c t' => exact ⟨rfl, by simp⟩

/-- Running the column-assignment loop on a frame whose index has length
`L`: as soon as some remaining block's X or Y list has a different
length, the loop ends in `ValueError`. -/
theorem buildCoordAux_mismatch (L : ℕ) (bs : List ScanBlock) :
    ∀ (i : ℕ) (t : Table), t ≠ [] → nRows t = L →
    (∃ b ∈ bs, b.X.length ≠ L ∨ b.Y.length ≠ L) →
    buildCoordAux bs i t = .error .valueErr := by
  induction bs with
  | nil =>
    intro i t _ _ h
    simp at h
  | cons b bs ih =>
    intro i t ht hL hw
    unfold buildCoordAux
    by_cases hbx : b.X.length = L
    · have hx := assignList_match t ("x_" ++ toString i) b.X ht (by rw [hL]; exact hbx)
      have h1 := nRows_setCol t ("x_" ++ toString i) (b.X.map some) ht
        (by simpa [hL] using hbx)
      simp only [hx]
      by_cases hby : b.Y.length = L
      · have hy := assignList_match _ ("y_" ++ toString i) b.Y h1.2
          (by rw [h1.1, hL]; exact hby)
        have h2 := nRows_setCol _ ("y_" ++ toString i) (b.Y.map some) h1.2
          (by rw [h1.1, hL]; simpa using hby)
        simp only [hy]
        apply ih (i + 1) _ h2.2 (by rw [h2.1, h1.1, hL])
        rcases hw with ⟨b', hb', hor⟩
        rcases List.mem_cons.mp hb' with rfl | hmem
        · rcases hor with h | h
          · exact absurd hbx h
          · exact absurd hby h
        · exact ⟨b', hmem, hor⟩
      · have hy := assignList_mismatch _ ("y_" ++ toString i) b.Y h1.2
          (by rw [h1.1, hL]; simpa using hby)
        simp only [hy]
    · have hx := assignList_mismatch t ("x_" ++ toString i) b.X ht (by rw [hL]; exact hbx)
      simp only [hx]

/-! ## Claims about the coordinate table -/

/-- C6 (amended): blocks with differing coordinate-array lengths are all
accepted by the parser layer (no length check exists there), but the
coordinate-table construction does not represent the missing cells: the
first wrong-length column assignment raises `ValueError`, so the file
fails and no table — ragged, padded or otherwise — is produced. -/
theorem coord_c6_ragged_error (blocks : List ScanBlock) (b0 : ScanBlock)
    (tl : List ScanBlock) (hB : blocks = b0 :: tl)
    (hrag : ∃ b ∈ blocks, b.X.length ≠ b0.X.length ∨ b.Y.length ≠ b0.X.length) :
    buildCoordinates blocks = .error .valueErr := by
  subst hB
  unfold buildCoordinates buildCoordAux
  have hx : assignList [] ("x_" ++ toString 0) b0.X
      = .ok [("x_" ++ toString 0, b0.X.map some)] := rfl
  have h1 : nRows [("x_" ++ toString 0, b0.X.map some)] = b0.X.length := by
    simp [nRows]
  simp only [hx]
  by_cases hby : b0.Y.length = b0.X.length
  · have hy := assignList_match [("x_" ++ toString 0, b0.X.map some)]
      ("y_" ++ toString 0) b0.Y (by simp) (by rw [h1]; exact hby)
    have h2 := nRows_setCol [("x_" ++ toString 0, b0.X.map some)]
      ("y_" ++ toString 0) (b0.Y.map some) (by simp) (by rw [h1]; simpa using hby)
    simp only [hy]
    apply buildCoordAux_mismatch b0.X.length tl 1 _ h2.2 (by rw [h2.1, h1])
    rcases hrag with ⟨b', hb', hor⟩
    rcases List.mem_cons.mp hb' with rfl | hmem
    · rcases hor with h | h
      · exact absurd rfl h
      · exact absurd hby h
    · exact ⟨b', hmem, hor⟩
  · have hy := assignList_mismatch [("x_" ++ toString 0, b0.X.map some)]
      ("y_" ++ toString 0) b0.Y (by simp) (by rw [h1]; simpa using hby)
    simp only [hy]

/-- Witness for C6 (amended): two well-formed blocks whose X arrays have
lengths 2 and 1 make the coordinate-table construction fail. -/
theorem coord_c6_ragged_error_witness :
    buildCoordinates [⟨"2025-05-26T14:58:59", 10, 2, 0, 3/2, [1, 2], [3, 4]⟩,
        ⟨"2025-05-26T14:59:59", 10, 2, 0, 3/2, [5], [6]⟩] = .error .valueErr :=
  coord_c6_ragged_error _ _ _ rfl
    ⟨⟨"2025-05-26T14:59:59", 10, 2, 0, 3/2, [5], [6]⟩,
     List.mem_cons_of_mem _ (List.mem_cons_self _ _), Or.inl (by decide)⟩

/-- Counterexample to C6 as stated: a file whose two blocks parse fine
but have X arrays of lengths 2 and 1 — the parser emits both blocks, yet
`load_data` raises `ValueError` instead of producing a coordinate table
with an explicit missing marker. -/
theorem coord_c6_counterexample :
    parseLoop ["2025-05-26T14:58:59;10.0;2.0;0.0;1.5", "SCAN", "X;;1.0;2.0", "Y;;3.0;4.0",
        "2025-05-26T14:59:59;10.0;2.0;0.0;1.5", "SCAN", "X;;5.0", "Y;;6.0"] []
      = .ok [⟨"2025-05-26T14:58:59", 10, 2, 0, 3/2, [1, 2], [3, 4]⟩,
             ⟨"2025-05-26T14:59:59", 10, 2, 0, 3/2, [5], [6]⟩]
    ∧ load_data ["2025-05-26T14:58:59;10.0;2.0;0.0;1.5", "SCAN", "X;;1.0;2.0", "Y;;3.0;4.0",
        "2025-05-26T14:59:59;10.0;2.0;0.0;1.5", "SCAN", "X;;5.0", "Y;;6.0"]
      = .error .valueErr := by
  constructor
  · with_unfolding_all rfl
  · with_unfolding_all rfl

/-! ## Lemmas about the aggregator -/

/-- The row-wise mean column of the given axis, as a function of the
original frame only. -/
def meanColumn (t : Table) (a : String) : List Cell :=
  (List.range (nRows t)).map (fun i => qmean (rowVals t (axisCols t a) i))

/-- The row-wise median column of the given axis, as a function of the
original frame only. -/
def medianColumn (t : Table) (a : String) : List Cell :=
  (List.range (nRows t)).map (fun i => qmedian (rowVals t (axisCols t a) i))

/-- The mean column has one cell per row of the frame. -/
theorem meanColumn_length (t : Table) (a : String) :
    (meanColumn t a).length = nRows t := by
  simp [meanColumn]

/-- The median column has one cell per row of the frame. -/
theorem medianColumn_length (t : Table) (a : String) :
    (medianColumn t a).length = nRows t := by
  simp [medianColumn]

/-- Assigning a fresh column name appends it at the end. -/
theorem setCol_fresh (t : Table) (n : String) (v : List Cell)
    (h : ∀ c ∈ t, c.1 ≠ n) : setCol t n v = t ++ [(n, v)] := by
  unfold setCol
  rw [if_neg (by
    intro hc
    simp only [List.any_eq_true, decide_eq_true_eq] at hc
    obtain ⟨c, hct, hcn⟩ := hc
    exact h c hct hcn)]

/-- Appending a column of the index's length keeps the index length. -/
theorem nRows_append_self (t : Table) (n : String) (v : List Cell)
    (hv : v.length = nRows t) : nRows (t ++ [(n, v)]) = nRows t := by
  cases t with
  | nil => simpa [nRows] using hv
  | cons c t' => rfl

/-- Looking up a column other than a freshly appended one is unchanged. -/
theorem colVals_append_other (t : Table) (n m : String) (v : List Cell)
    (hne : m ≠ n) : colVals (t ++ [(n, v)]) m = colVals t m := by
  induction t with
  | nil =>
    simp only [List.nil_append, colVals, List.find?]
    rw [decide_eq_false (fun he : n = m => hne he.symm)]
  | cons c t' ih =>
    by_cases hc : c.1 = m
    · simp only [List.cons_append, colVals, List.find?, decide_eq_true hc]
    · simp only [List.cons_append, colVals, List.find?, decide_eq_false hc] at ih ⊢
      exact ih

/-- Row extraction only looks at the listed columns. -/
theorem rowVals_congr (t t' : Table) (cols : List String) (i : ℕ)
    (h : ∀ n ∈ cols, colVals t' n = colVals t n) :
    rowVals t' cols i = rowVals t cols i := by
  unfold rowVals
  exact List.filterMap_congr (fun n hn => by rw [h n hn])

/-- Axis selection distributes over appending columns. -/
theorem axisCols_append (t l : Table) (a : String) :
    axisCols (t ++ l) a = axisCols t a ++ axisCols l a := by
  simp [axisCols, List.filter_append]

/-- Every selected axis column name starts with the axis prefix. -/
theorem mem_axisCols (t : Table) (a n : String) (h : n ∈ axisCols t a) :
    strStarts n a = true := by
  simp only [axisCols, List.mem_map, List.mem_filter] at h
  obtain ⟨c, ⟨_, hs⟩, rfl⟩ := h
  exact hs

/-- Names on either side of the axis-prefix test differ. -/
theorem ne_of_strStarts {n m a : String} (h1 : strStarts n a = true)
    (h2 : strStarts m a = false) : n ≠ m := by
  intro he
  rw [he, h2] at h1
  cases h1

/-- Appending a column whose name is outside the axis changes neither the
axis's mean column nor its median column. -/
theorem meanColumn_append (t : Table) (a n : String) (v : List Cell)
    (hn : strStarts n a = false) (hv : v.length = nRows t) :
    meanColumn (t ++ [(n, v)]) a = meanColumn t a
    ∧ medianColumn (t ++ [(n, v)]) a = medianColumn t a := by
  have hax : axisCols [(n, v)] a = [] := by
    simp [axisCols, List.filter, hn]
  have hcols : ∀ i, rowVals (t ++ [(n, v)]) (axisCols t a) i = rowVals t (axisCols t a) i := by
    intro i
    refine rowVals_congr t _ _ i fun m hm => ?_
    exact colVals_append_other t n m v (ne_of_strStarts (mem_axisCols t a m hm) hn)
  constructor <;>
    · simp only [meanColumn, medianColumn, nRows_append_self t n v hv, axisCols_append,
        hax, List.append_nil]
      exact List.map_congr_left fun i _ => by rw [hcols i]

/-- One axis pass appends exactly its mean and median columns, both
computable from the incoming frame alone. -/
theorem axisStep_eq (t : Table) (a : String)
    (h1 : ∀ c ∈ t, c.1 ≠ "mean_" ++ a)
    (h2 : ∀ c ∈ t, c.1 ≠ "median_" ++ a)
    (hne : ("median_" ++ a : String) ≠ "mean_" ++ a)
    (hsm : strStarts ("mean_" ++ a) a = false) :
    axisStep t a
      = t ++ [("mean_" ++ a, meanColumn t a), ("median_" ++ a, medianColumn t a)] := by
  have hfr : ∀ (v : List Cell) (c : String × List Cell),
      c ∈ t ++ [("mean_" ++ a, v)] → c.1 ≠ "median_" ++ a := by
    intro v c hc
    rcases List.mem_append.mp hc with hct | hcl
    · exact h2 c hct
    · rw [List.mem_singleton.mp hcl]
      exact fun he => hne he.symm
  have hrv : ∀ i, rowVals (t ++ [("mean_" ++ a,
        (List.range (nRows t)).map (fun j => qmean (rowVals t (axisCols t a) j)))])
      (axisCols t a) i = rowVals t (axisCols t a) i := by
    intro i
    refine rowVals_congr t _ _ i fun m hm => ?_
    exact colVals_append_other t _ m _ (ne_of_strStarts (mem_axisCols t a m hm) hsm)
  simp only [axisStep, meanColumn, medianColumn]
  rw [setCol_fresh t ("mean_" ++ a) _ h1]
  rw [setCol_fresh _ ("median_" ++ a) _ (hfr _)]
  rw [nRows_append_self t ("mean_" ++ a) _ (by simp)]
  simp only [hrv, List.append_assoc, List.singleton_append, List.cons_append, List.nil_append]

/-- Helper equalities turning the axis-name appends into their literals. -/
theorem axis_name_x : ("mean_" ++ "x" : String) = "mean_x" ∧
    ("median_" ++ "x" : String) = "median_x" ∧ ("mean_" ++ "y" : String) = "mean_y" ∧
    ("median_" ++ "y" : String) = "median_y" := by
  refine ⟨rfl, rfl, rfl, rfl⟩

/-- The whole of `summarise_metrics` on a frame free of the four summary
names: the original columns stay in place and in order, and exactly
`mean_x, median_x, mean_y, median_y` are appended, each computed row-wise
from the original frame's axis columns. -/
theorem summarise_metrics_eq (t : Table)
    (hfresh : ∀ c ∈ t,
      c.1 ∉ (["mean_x", "median_x", "mean_y", "median_y"] : List String)) :
    summarise_metrics t
      = t ++ [("mean_x", meanColumn t "x"), ("median_x", medianColumn t "x"),
              ("mean_y", meanColumn t "y"), ("median_y", medianColumn t "y")] := by
  have hmx : ∀ c ∈ t, c.1 ≠ "mean_" ++ "x" := by
    intro c hc he
    exact hfresh c hc (by rw [he]; decide)
  have hmdx : ∀ c ∈ t, c.1 ≠ "median_" ++ "x" := by
    intro c hc he
    exact hfresh c hc (by rw [he]; decide)
  unfold summarise_metrics
  rw [axisStep_eq t "x" hmx hmdx (by decide) rfl]
  rw [axis_name_x.1, axis_name_x.2.1]
  have h1y : ∀ c ∈ t ++ [("mean_x", meanColumn t "x"), ("median_x", medianColumn t "x")],
      c.1 ≠ "mean_" ++ "y" := by
    intro c hc he
    rcases List.mem_append.mp hc with hct | hcl
    · exact hfresh c hct (by rw [he]; decide)
    · simp only [List.mem_cons, List.mem_singleton, List.not_mem_nil, or_false] at hcl
      rcases hcl with rfl | rfl
      · exact (by decide : ("mean_x" : String) ≠ "mean_" ++ "y") he
      · exact (by decide : ("median_x" : String) ≠ "mean_" ++ "y") he
  have h2y : ∀ c ∈ t ++ [("mean_x", meanColumn t "x"), ("median_x", medianColumn t "x")],
      c.1 ≠ "median_" ++ "y" := by
    intro c hc he
    rcases List.mem_append.mp hc with hct | hcl
    · exact hfresh c hct (by rw [he]; decide)
    · simp only [List.mem_cons, List.mem_singleton, List.not_mem_nil, or_false] at hcl
      rcases hcl with rfl | rfl
      · exact (by decide : ("mean_x" : String) ≠ "median_" ++ "y") he
      · exact (by decide : ("median_x" : String) ≠ "median_" ++ "y") he
  rw [axisStep_eq _ "y" h1y h2y (by decide) rfl]
  rw [axis_name_x.2.2.1, axis_name_x.2.2.2]
  have hsplit : t ++ [("mean_x", meanColumn t "x"), ("median_x", medianColumn t "x")]
      = (t ++ [("mean_x", meanColumn t "x")]) ++ [("median_x", medianColumn t "x")] := by
    simp
  have hmy : meanColumn (t ++ [("mean_x", meanColumn t "x"),
        ("median_x", medianColumn t "x")]) "y" = meanColumn t "y" := by
    rw [hsplit,
      (meanColumn_append (t ++ [("mean_x", meanColumn t "x")]) "y" "median_x" _ rfl
        (by rw [nRows_append_self t _ _ (meanColumn_length t "x")]
            exact medianColumn_length t "x")).1,
      (meanColumn_append t "y" "mean_x" _ rfl (meanColumn_length t "x")).1]
  have hmdy : medianColumn (t ++ [("mean_x", meanColumn t "x"),
        ("median_x", medianColumn t "x")]) "y" = medianColumn t "y" := by
    rw [hsplit,
      (meanColumn_append (t ++ [("mean_x", meanColumn t "x")]) "y" "median_x" _ rfl
        (by rw [nRows_append_self t _ _ (meanColumn_length t "x")]
            exact medianColumn_length t "x")).2,
      (meanColumn_append t "y" "mean_x" _ rfl (meanColumn_length t "x")).2]
  rw [hmy, hmdy]
  simp [List.append_assoc]

/-- Looking up a name absent from the left part of an appended frame
falls through to the right part. -/
theorem colVals_append_list (t l : Table) (m : String)
    (h : ∀ c ∈ t, c.1 ≠ m) : colVals (t ++ l) m = colVals l m := by
  induction t with
  | nil => rfl
  | cons c t' ih =>
    have hc : c.1 ≠ m := h c (List.mem_cons_self c t')
    simp only [List.cons_append, colVals, List.find?, decide_eq_false hc]
    exact ih fun d hd => h d (List.mem_cons_of_mem c hd)

/-- The four summary columns of `summarise_metrics` read back exactly the
row-wise mean and median columns of the original frame's axes. -/
theorem summarise_colVals (t : Table)
    (hfresh : ∀ c ∈ t,
      c.1 ∉ (["mean_x", "median_x", "mean_y", "median_y"] : List String)) :
    colVals (summarise_metrics t) "mean_x" = meanColumn t "x"
    ∧ colVals (summarise_metrics t) "median_x" = medianColumn t "x"
    ∧ colVals (summarise_metrics t) "mean_y" = meanColumn t "y"
    ∧ colVals (summarise_metrics t) "median_y" = medianColumn t "y" := by
  rw [summarise_metrics_eq t hfresh]
  refine ⟨?_, ?_, ?_, ?_⟩ <;>
    [rw [colVals_append_list t _ "mean_x" fun c hc he => hfresh c hc (by rw [he]; decide)];
     rw [colVals_append_list t _ "median_x" fun c hc he => hfresh c hc (by rw [he]; decide)];
     rw [colVals_append_list t _ "mean_y" fun c hc he => hfresh c hc (by rw [he]; decide)];
     rw [colVals_append_list t _ "median_y" fun c hc he => hfresh c hc (by rw [he]; decide)]] <;>
    simp [colVals, List.find?]

/-- Axis selection is empty when no column name carries the prefix. -/
theorem axisCols_nil_of (t : Table) (a : String)
    (h : ∀ c ∈ t, strStarts c.1 a = false) : axisCols t a = [] := by
  unfold axisCols
  rw [List.filter_eq_nil_iff.mpr (by intro c hc; simp [h c hc])]
  rfl

/-- With no axis columns, every row aggregates over the empty set, giving
a missing value in every row of both summary columns. -/
theorem meanColumn_nil (t : Table) (a : String) (h : axisCols t a = []) :
    meanColumn t a = List.replicate (nRows t) none
    ∧ medianColumn t a = List.replicate (nRows t) none := by
  constructor <;>
    · simp [meanColumn, medianColumn, h, rowVals, qmean, qmedian]

/-! ## Claims about the aggregator -/

/-- C7: on a frame free of the four summary names (every CoordinateTable
is, its columns being `x_i`/`y_i`), `summarise_metrics` returns a frame
whose prefix is the input — every original column kept with its name,
values and position — followed by exactly `mean_x, median_x, mean_y,
median_y` in that order.  The input, a value of this pure embedding just
as `df.copy()` decouples the frames in the source, is not mutated. -/
theorem agg_c7_frame (t : Table)
    (hfresh : ∀ c ∈ t,
      c.1 ∉ (["mean_x", "median_x", "mean_y", "median_y"] : List String)) :
    (summarise_metrics t).take t.length = t
    ∧ (summarise_metrics t).map Prod.fst
        = t.map Prod.fst ++ ["mean_x", "median_x", "mean_y", "median_y"] := by
  rw [summarise_metrics_eq t hfresh]
  constructor
  · exact List.take_left t _
  · simp

/-- Witness for C7 at the one-block coordinate table of §8. -/
theorem agg_c7_frame_witness :
    (summarise_metrics [("x_0", [some 1, some 2]), ("y_0", [some 3, some 4])]).take 2
        = [("x_0", [some 1, some 2]), ("y_0", [some 3, some 4])]
    ∧ (summarise_metrics [("x_0", [some 1, some 2]), ("y_0", [some 3, some 4])]).map Prod.fst
        = ["x_0", "y_0", "mean_x", "median_x", "mean_y", "median_y"] := by
  have h := agg_c7_frame [("x_0", [some 1, some 2]), ("y_0", [some 3, some 4])] (by decide)
  exact ⟨h.1, h.2⟩

/-- C8: at every row index, the `mean_x` column of the output holds the
arithmetic mean (`qmean`: sum over count) of that row's values across all
`x`-prefixed columns and `median_x` the statistical median (`qmedian`:
middle of the sorted values, or the mean of the two middle ones) of the
same set, and likewise for the `y` axis:
the four summary columns equal `meanColumn`/`medianColumn`, which map
exactly those row-wise aggregations over all row indices. -/
theorem agg_c8_rowwise_stats (t : Table)
    (hfresh : ∀ c ∈ t,
      c.1 ∉ (["mean_x", "median_x", "mean_y", "median_y"] : List String)) :
    colVals (summarise_metrics t) "mean_x" = meanColumn t "x"
    ∧ colVals (summarise_metrics t) "median_x" = medianColumn t "x"
    ∧ colVals (summarise_metrics t) "mean_y" = meanColumn t "y"
    ∧ colVals (summarise_metrics t) "median_y" = medianColumn t "y" :=
  summarise_colVals t hfresh

/-- Witness for C8 at the aggregation example of §8: columns `x_0=[1,3]`
and `x_1=[5,7]` give `mean_x=[3,5]` and `median_x=[3,5]`. -/
theorem agg_c8_rowwise_stats_witness :
    colVals (summarise_metrics [("x_0", [some 1, some 3]), ("x_1", [some 5, some 7])]) "mean_x"
        = [some 3, some 5]
    ∧ colVals (summarise_metrics [("x_0", [some 1, some 3]), ("x_1", [some 5, some 7])])
        "median_x" = [some 3, some 5] := by
  have h := agg_c8_rowwise_stats [("x_0", [some 1, some 3]), ("x_1", [some 5, some 7])]
    (by decide)
  refine ⟨h.1.trans ?_, h.2.1.trans ?_⟩ <;> with_unfolding_all rfl

/-- C9: if no column belongs to an axis, the aggregation does not raise —
the axis's mean and median columns are still produced, holding the
missing value in every row (the empty aggregation). -/
theorem agg_c9_empty_axis (t : Table)
    (hfresh : ∀ c ∈ t,
      c.1 ∉ (["mean_x", "median_x", "mean_y", "median_y"] : List String)) :
    ((∀ c ∈ t, strStarts c.1 "x" = false) →
        colVals (summarise_metrics t) "mean_x" = List.replicate (nRows t) none
        ∧ colVals (summarise_metrics t) "median_x" = List.replicate (nRows t) none)
    ∧ ((∀ c ∈ t, strStarts c.1 "y" = false) →
        colVals (summarise_metrics t) "mean_y" = List.replicate (nRows t) none
        ∧ colVals (summarise_metrics t) "median_y" = List.replicate (nRows t) none) := by
  constructor
  · intro hx
    have h0 := meanColumn_nil t "x" (axisCols_nil_of t "x" hx)
    exact ⟨(summarise_colVals t hfresh).1.trans h0.1,
      (summarise_colVals t hfresh).2.1.trans h0.2⟩
  · intro hy
    have h0 := meanColumn_nil t "y" (axisCols_nil_of t "y" hy)
    exact ⟨(summarise_colVals t hfresh).2.2.1.trans h0.1,
      (summarise_colVals t hfresh).2.2.2.trans h0.2⟩

/-- Witness for C9 at a frame with one `x`-column and no `y`-column: the
`y` summary columns come out as two missing values. -/
theorem agg_c9_empty_axis_witness :
    colVals (summarise_metrics [("x_0", [some 1, some 2])]) "mean_y"
        = List.replicate 2 none
    ∧ colVals (summarise_metrics [("x_0", [some 1, some 2])]) "median_y"
        = List.replicate 2 none := by
  have h := (agg_c9_empty_axis [("x_0", [some 1, some 2])] (by decide)).2 (by decide)
  exact ⟨h.1, h.2⟩
